import Mathlib

/-! # PhotoVerify REST sample (Go): a shallow embedding of `main.go`

The program reads up to three image files, turns each into a base64 data URI,
posts them as one JSON request with HTTP Basic Authentication and prints the
decoded verification result.

Conventions of the embedding:

* a Go `byte` is a `Fin 256`, a Go `string` and a `[]byte` are lists of bytes;
* a Go `error` is `Option GoString`: `none` is `nil`, `some m` is an error
  whose `Error()` text is `m`;
* file system, HTTP transport, JSON decoding and the clock are fields of a
  `World` record, so every function of the program is a pure function of its
  arguments and the world;
* the three goroutines of `main` run in the order given by a schedule, each
  writing its own result slots, and `wg.Wait()` returns when all have run.
-/

namespace PhotoVerify

/-! ## Bytes and strings -/

/-- A Go `byte`. -/
abbrev Byte := Fin 256

/-- A Go `string` (and a `[]byte`): a finite sequence of bytes. -/
abbrev GoString := List Byte

/-- The bytes of a string literal of the source (its UTF-8 encoding). -/
def str (s : String) : GoString :=
  (s.data.flatMap String.utf8EncodeChar).map (fun u => u.val)

/-! ## `encoding/base64`, `StdEncoding` -/

/-- The alphabet of `base64.StdEncoding`. -/
def encodeStd : GoString :=
  str "ABCDEFGHIJKLMNOPQRSTUVWXYZabcdefghijklmnopqrstuvwxyz0123456789+/"

/-- The padding character of `base64.StdEncoding`, `'='`. -/
def StdPadding : Byte := 61

/-- The table lookup `enc.encode[v & 0x3F]`. -/
def encodeByte (v : Nat) : Byte := encodeStd.getD (v % 64) 0

/-- The method `(*Encoding).Encode` of `base64.StdEncoding`: full groups of
three bytes give four characters, a remainder of two bytes gives three
characters and one padding character, a remainder of one byte gives two
characters and two padding characters. -/
def Encode : List Byte → GoString
  | [] => []
  | [a] =>
    let val := a.val * 65536
    [encodeByte (val / 262144), encodeByte (val / 4096), StdPadding, StdPadding]
  | [a, b] =>
    let val := a.val * 65536 + b.val * 256
    [encodeByte (val / 262144), encodeByte (val / 4096), encodeByte (val / 64), StdPadding]
  | a :: b :: c :: rest =>
    let val := a.val * 65536 + b.val * 256 + c.val
    encodeByte (val / 262144) :: encodeByte (val / 4096) :: encodeByte (val / 64)
      :: encodeByte val :: Encode rest

/-- The method `base64.StdEncoding.EncodeToString`. -/
def EncodeToString (src : List Byte) : GoString := Encode src

/-- The inverse table of the alphabet: the position of a character in
`encodeStd`, if it is one of the 64. -/
def decodeByte (c : Byte) : Option Nat :=
  let i := encodeStd.indexOf c
  if i < 64 then some i else none

/-- Standard base64 decoding (RFC 4648, section 4, with padding): the input is
read in groups of four characters; only the last group may end in one or two
padding characters. -/
def Decode : GoString → Option (List Byte)
  | [] => some []
  | c0 :: c1 :: c2 :: c3 :: rest =>
    if c3 = StdPadding then
      if rest ≠ [] then none
      else if c2 = StdPadding then
        match decodeByte c0, decodeByte c1 with
        | some v0, some v1 =>
          let val := v0 * 262144 + v1 * 4096
          some [Fin.ofNat (val / 65536)]
        | _, _ => none
      else
        match decodeByte c0, decodeByte c1, decodeByte c2 with
        | some v0, some v1, some v2 =>
          let val := v0 * 262144 + v1 * 4096 + v2 * 64
          some [Fin.ofNat (val / 65536), Fin.ofNat (val / 256)]
        | _, _, _ => none
    else
      match decodeByte c0, decodeByte c1, decodeByte c2, decodeByte c3, Decode rest with
      | some v0, some v1, some v2, some v3, some tl =>
        let val := v0 * 262144 + v1 * 4096 + v2 * 64 + v3
        some (Fin.ofNat (val / 65536) :: Fin.ofNat (val / 256) :: Fin.ofNat val :: tl)
      | _, _, _, _, _ => none
  | _ => none

/-! ## `net/http`, `DetectContentType`

The sniffing algorithm of the Go standard library (`net/http/sniff.go`): at
most the first 512 bytes are looked at, the signatures are tried in their
table order and the first one that matches gives the type. -/

/-- The constant `sniffLen`. -/
def sniffLen : Nat := 512

/-- The function `isWS`: tab, line feed, form feed, carriage return, space. -/
def isWS (b : Byte) : Bool :=
  b = 9 || b = 10 || b = 12 || b = 13 || b = 32

/-- The function `isTT`: a tag-terminating byte, space or `>`. -/
def isTT (b : Byte) : Bool :=
  b = 32 || b = 62

/-- The loop of `DetectContentType` that finds the index of the first
non-whitespace byte. -/
def firstNonWS : List Byte → Nat
  | [] => 0
  | b :: rest => if isWS b then firstNonWS rest + 1 else 0

/-- The byte comparison loop of `htmlSig.match`: the data byte is folded to
upper case where the signature byte is an upper-case letter. -/
def htmlLoop : List Byte → List Byte → Bool
  | [], _ => true
  | _ :: _, [] => false
  | b :: h, db :: data =>
    let db1 := if 65 ≤ b.val ∧ b.val ≤ 90 then db &&& 0xDF else db
    if b ≠ db1 then false else htmlLoop h data

/-- The method `htmlSig.match`. -/
def htmlSigMatch (h : GoString) (data : List Byte) (firstNonWS : Nat) : GoString :=
  let data := data.drop firstNonWS
  if data.length < h.length + 1 then []
  else if !htmlLoop h data then []
  else if !isTT (data.getD h.length 0) then []
  else str "text/html; charset=utf-8"

/-- The comparison loop of `maskedSig.match`: `data[i] & mask[i] == pat[i]` for
every index of the pattern. -/
def maskedLoop : List Byte → List Byte → List Byte → Bool
  | [], _, _ => true
  | pb :: pat, m :: mask, d :: data => if d &&& m ≠ pb then false else maskedLoop pat mask data
  | _ :: _, _, _ => false

/-- The method `maskedSig.match`. -/
def maskedSigMatch (mask pat : List Byte) (skipWS : Bool) (ct : GoString)
    (data : List Byte) (firstNonWS : Nat) : GoString :=
  let data := if skipWS then data.drop firstNonWS else data
  if pat.length ≠ mask.length then []
  else if data.length < pat.length then []
  else if !maskedLoop pat mask data then []
  else ct

/-- The function `bytes.HasPrefix`. -/
def HasPrefix : List Byte → List Byte → Bool
  | _, [] => true
  | [], _ :: _ => false
  | d :: data, p :: pre => d = p && HasPrefix data pre

/-- The method `exactSig.match`. -/
def exactSigMatch (sig : List Byte) (ct : GoString) (data : List Byte) : GoString :=
  if HasPrefix data sig then ct else []

/-- The loop of `mp4Sig.match` over the brands of the `ftyp` box, starting at
offset `st` and advancing by four; offset 12 is skipped. The number of
remaining iterations is bounded by `fuel`. -/
def mp4Loop (data : List Byte) (boxSize : Nat) : Nat → Nat → Bool
  | 0, _ => false
  | fuel + 1, st =>
    if st < boxSize then
      if st = 12 then mp4Loop data boxSize fuel (st + 4)
      else if (data.drop st).take 3 = str "mp4" then true
      else mp4Loop data boxSize fuel (st + 4)
    else false

/-- The method `mp4Sig.match`. -/
def mp4SigMatch (data : List Byte) : GoString :=
  if data.length < 12 then []
  else
    let boxSize := (data.getD 0 0).val * 16777216 + (data.getD 1 0).val * 65536
      + (data.getD 2 0).val * 256 + (data.getD 3 0).val
    if data.length < boxSize ∨ boxSize % 4 ≠ 0 then []
    else if (data.drop 4).take 4 ≠ str "ftyp" then []
    else if mp4Loop data boxSize boxSize 8 then str "video/mp4"
    else []

/-- The method `textSig.match`: no byte from the first non-whitespace byte on
is a binary data byte. -/
def textSigMatch (data : List Byte) (firstNonWS : Nat) : GoString :=
  if (data.drop firstNonWS).any (fun b =>
      b.val ≤ 0x08 || b.val = 0x0B || (0x0E ≤ b.val && b.val ≤ 0x1A)
        || (0x1C ≤ b.val && b.val ≤ 0x1F)) then []
  else str "text/plain; charset=utf-8"

/-- The interface `sniffSig` with its five implementations. -/
inductive sniffSig where
  | htmlSig (h : GoString)
  | maskedSig (mask pat : List Byte) (skipWS : Bool) (ct : GoString)
  | exactSig (sig : List Byte) (ct : GoString)
  | mp4Sig
  | textSig

/-- The method `match` of a signature; the empty string means no match. -/
def sniffSig.matchSig (data : List Byte) (firstNonWS : Nat) : sniffSig → GoString
  | .htmlSig h => htmlSigMatch h data firstNonWS
  | .maskedSig mask pat skipWS ct => maskedSigMatch mask pat skipWS ct data firstNonWS
  | .exactSig sig ct => exactSigMatch sig ct data
  | .mp4Sig => mp4SigMatch data
  | .textSig => textSigMatch data firstNonWS

/-- The signatures of the table `sniffSignatures` that stand before the image
types: HTML tags, XML, PDF, PostScript and the byte order marks. -/
def sniffSignaturesText : List sniffSig :=
  [ .htmlSig (str "<!DOCTYPE HTML"), .htmlSig (str "<HTML"), .htmlSig (str "<HEAD"),
    .htmlSig (str "<SCRIPT"), .htmlSig (str "<IFRAME"), .htmlSig (str "<H1"),
    .htmlSig (str "<DIV"), .htmlSig (str "<FONT"), .htmlSig (str "<TABLE"),
    .htmlSig (str "<A"), .htmlSig (str "<STYLE"), .htmlSig (str "<TITLE"),
    .htmlSig (str "<B"), .htmlSig (str "<BODY"), .htmlSig (str "<BR"),
    .htmlSig (str "<P"), .htmlSig (str "<!--"),
    .maskedSig [0xFF, 0xFF, 0xFF, 0xFF, 0xFF] (str "<?xml") true (str "text/xml; charset=utf-8"),
    .exactSig (str "%PDF-") (str "application/pdf"),
    .exactSig (str "%!PS-Adobe-") (str "application/postscript"),
    .maskedSig [0xFF, 0xFF, 0x00, 0x00] [0xFE, 0xFF, 0x00, 0x00] false
      (str "text/plain; charset=utf-16be"),
    .maskedSig [0xFF, 0xFF, 0x00, 0x00] [0xFF, 0xFE, 0x00, 0x00] false
      (str "text/plain; charset=utf-16le"),
    .maskedSig [0xFF, 0xFF, 0xFF, 0x00] [0xEF, 0xBB, 0xBF, 0x00] false
      (str "text/plain; charset=utf-8") ]

/-- The image signatures of the table `sniffSignatures`. -/
def sniffSignaturesImage : List sniffSig :=
  [ .exactSig [0x00, 0x00, 0x01, 0x00] (str "image/x-icon"),
    .exactSig [0x00, 0x00, 0x02, 0x00] (str "image/x-icon"),
    .exactSig (str "BM") (str "image/bmp"),
    .exactSig (str "GIF87a") (str "image/gif"),
    .exactSig (str "GIF89a") (str "image/gif"),
    .maskedSig [0xFF, 0xFF, 0xFF, 0xFF, 0x00, 0x00, 0x00, 0x00, 0xFF, 0xFF, 0xFF, 0xFF, 0xFF, 0xFF]
      (str "RIFF" ++ [0, 0, 0, 0] ++ str "WEBPVP") false (str "image/webp"),
    .exactSig ([0x89] ++ str "PNG" ++ [0x0D, 0x0A, 0x1A, 0x0A]) (str "image/png"),
    .exactSig [0xFF, 0xD8, 0xFF] (str "image/jpeg") ]

/-- The signatures of the table `sniffSignatures` that stand after the image
types: audio and video, fonts, archives, WebAssembly and, last, plain text. -/
def sniffSignaturesRest : List sniffSig :=
  [ .maskedSig [0xFF, 0xFF, 0xFF, 0xFF, 0x00, 0x00, 0x00, 0x00, 0xFF, 0xFF, 0xFF, 0xFF]
      (str "FORM" ++ [0, 0, 0, 0] ++ str "AIFF") false (str "audio/aiff"),
    .maskedSig [0xFF, 0xFF, 0xFF] (str "ID3") false (str "audio/mpeg"),
    .maskedSig [0xFF, 0xFF, 0xFF, 0xFF, 0xFF] (str "OggS" ++ [0]) false (str "application/ogg"),
    .maskedSig [0xFF, 0xFF, 0xFF, 0xFF, 0xFF, 0xFF, 0xFF, 0xFF] (str "MThd" ++ [0, 0, 0, 6]) false
      (str "audio/midi"),
    .maskedSig [0xFF, 0xFF, 0xFF, 0xFF, 0x00, 0x00, 0x00, 0x00, 0xFF, 0xFF, 0xFF, 0xFF]
      (str "RIFF" ++ [0, 0, 0, 0] ++ str "AVI ") false (str "video/avi"),
    .maskedSig [0xFF, 0xFF, 0xFF, 0xFF, 0x00, 0x00, 0x00, 0x00, 0xFF, 0xFF, 0xFF, 0xFF]
      (str "RIFF" ++ [0, 0, 0, 0] ++ str "WAVE") false (str "audio/wave"),
    .mp4Sig,
    .exactSig [0x1A, 0x45, 0xDF, 0xA3] (str "video/webm"),
    .maskedSig (List.replicate 34 0x00 ++ [0xFF, 0xFF]) (List.replicate 34 0x00 ++ str "LP") false
      (str "application/vnd.ms-fontobject"),
    .exactSig [0x00, 0x01, 0x00, 0x00] (str "font/ttf"),
    .exactSig (str "OTTO") (str "font/otf"),
    .exactSig (str "ttcf") (str "font/collection"),
    .exactSig (str "wOFF") (str "font/woff"),
    .exactSig (str "wOF2") (str "font/woff2"),
    .exactSig [0x1F, 0x8B, 0x08] (str "application/x-gzip"),
    .exactSig (str "PK" ++ [0x03, 0x04]) (str "application/zip"),
    .exactSig (str "Rar!" ++ [0x1A, 0x07, 0x00]) (str "application/x-rar-compressed"),
    .exactSig (str "Rar!" ++ [0x1A, 0x07, 0x01, 0x00]) (str "application/x-rar-compressed"),
    .exactSig [0x00, 0x61, 0x73, 0x6D] (str "application/wasm"),
    .textSig ]

/-- The table `sniffSignatures`, in its order. -/
def sniffSignatures : List sniffSig :=
  sniffSignaturesText ++ sniffSignaturesImage ++ sniffSignaturesRest

/-- The loop of `DetectContentType` over the signatures: the first non-empty
match is returned, and `application/octet-stream` when none matches. -/
def sniffLoop (data : List Byte) (firstNonWS : Nat) : List sniffSig → GoString
  | [] => str "application/octet-stream"
  | sig :: sigs =>
    let ct := sig.matchSig data firstNonWS
    if ct ≠ [] then ct else sniffLoop data firstNonWS sigs

/-- The function `http.DetectContentType`. -/
def DetectContentType (data : List Byte) : GoString :=
  let data := if data.length > sniffLen then data.take sniffLen else data
  sniffLoop data (firstNonWS data) sniffSignatures

/-! ## The program `main.go` -/

/-- The element type of `Errors` in `PhotoVerifyResponse`. -/
structure SampleError where
  Code : GoString
  Message : GoString
  Details : GoString

/-- The field `EyeCenters` of a sample. -/
structure EyeCenters where
  RightEyeX : Float
  RightEyeY : Float
  LeftEyeX : Float
  LeftEyeY : Float

/-- The element type of `Samples` in `PhotoVerifyResponse`. -/
structure Sample where
  Errors : List SampleError
  EyeCenters : EyeCenters

/-- The struct `PhotoVerifyResponse`. -/
structure PhotoVerifyResponse where
  Success : Bool
  JobID : GoString
  AccuracyLevel : Int
  State : GoString
  Samples : List Sample

/-- The zero value of `PhotoVerifyResponse`, the value of `var result`. -/
def PhotoVerifyResponse.zero : PhotoVerifyResponse :=
  { Success := false, JobID := [], AccuracyLevel := 0, State := [], Samples := [] }

/-- The request handed to `client.Do`: method, URL, the headers in the order
they were added, and the JSON object that `json.Marshal` makes of the map
`values`, as the list of its members in key order. -/
structure Request where
  method : GoString
  url : GoString
  header : List (GoString × GoString)
  jsonData : List (GoString × GoString)
deriving DecidableEq

/-- What the program does not compute itself. -/
structure World where
  /-- The call `os.ReadFile`: the content of the file or the text of the error. -/
  ReadFile : GoString → Except GoString (List Byte)
  /-- The error of `http.NewRequest` for a method and a URL, `none` for `nil`. -/
  NewRequest : GoString → GoString → Option GoString
  /-- The call `client.Do` followed by `io.ReadAll(resp.Body)`: a transport error,
  or the status code with the body or with the error of reading it. -/
  Do : Request → Except GoString (Nat × Except GoString (List Byte))
  /-- The call `json.Unmarshal(data, &result)`: the value of `result` after the
  call, from its value before, and the error. -/
  Unmarshal : List Byte → PhotoVerifyResponse → PhotoVerifyResponse × Option GoString
  /-- The text of `time.Since(startTime)` at the moment it is printed. -/
  Since : GoString

/-- The observable actions of a run, in program order. -/
inductive Event where
  | ReadFile (name : GoString)
  | NewRequest (method url : GoString) (jsonData : List (GoString × GoString))
  | Do (req : Request)
  | Unmarshal (data : List Byte)
  | Stdout (text : GoString)
  | Stderr (text : GoString)
deriving DecidableEq

/-- A finished run: what it did and the exit status of the process. -/
structure Outcome where
  trace : List Event
  exitCode : Nat

/-- The text written to standard output, one entry per print call. -/
def Outcome.stdout (o : Outcome) : List GoString :=
  o.trace.filterMap (fun e => match e with | .Stdout t => some t | _ => none)

/-- The text written by the logger, one entry per call. -/
def Outcome.stderr (o : Outcome) : List GoString :=
  o.trace.filterMap (fun e => match e with | .Stderr t => some t | _ => none)

/-- The text the standard logger with flags 0 writes for a message: the
message, with a newline appended unless it already ends in one. -/
def logText (msg : GoString) : GoString :=
  if msg.getLast? = some 10 then msg else msg ++ [10]

/-- One call of the standard logger. -/
def logOutput (msg : GoString) : Event :=
  .Stderr (logText msg)

/-- The call `log.Fatal` and `log.Fatalf` after the actions in `trace`: the
message is logged and the process exits with status 1. -/
def Fatal (trace : List Event) (msg : GoString) : Outcome :=
  { trace := trace ++ [logOutput msg], exitCode := 1 }

/-- The verbs `%v` and `%d` for an integer. -/
def formatInt (n : Int) : GoString := str (toString n)

/-- The verb `%v` for a boolean. -/
def formatBool (b : Bool) : GoString := if b then str "true" else str "false"

/-- The function `basicAuth`. -/
def basicAuth (username password : GoString) : GoString :=
  let auth := username ++ str ":" ++ password
  EncodeToString auth

/-- The function `sendRequest`: the actions it performs (the construction of
the request from the marshalled payload, the call of the transport, a fatal
log line), and the status code and body it returns, or `none` when it ended
the process with `log.Fatalf`. -/
def sendRequest (w : World) (method BWSAppID BWSAppSecret photo liveimage1 liveimage2 : GoString) :
    List Event × Option (Nat × List Byte) :=
  let endpoint := str "https://bws.bioid.com/extension/photoverify2"
  let values := [(str "idphoto", photo), (str "liveimage1", liveimage1)]
  let values := if liveimage2 ≠ [] then values ++ [(str "liveimage2", liveimage2)] else values
  match w.NewRequest method endpoint with
  | some err =>
    ([.NewRequest method endpoint values, logOutput (str "Failed to create request: " ++ err)],
      none)
  | none =>
    let req : Request :=
      { method := method, url := endpoint,
        header := [(str "Content-Type", str "application/json;charset=utf-8"),
          (str "Authorization", str "Basic " ++ basicAuth BWSAppID BWSAppSecret)],
        jsonData := values }
    match w.Do req with
    | .error err =>
      ([.NewRequest method endpoint values, .Do req,
        logOutput (str "Error sending request to API endpoint: " ++ err)], none)
    | .ok (_, .error err) =>
      ([.NewRequest method endpoint values, .Do req,
        logOutput (str "Failed to read response body: " ++ err)], none)
    | .ok (statusCode, .ok body) =>
      ([.NewRequest method endpoint values, .Do req], some (statusCode, body))

/-- The function `imageToBase64`: the returned string and the returned error. -/
def imageToBase64 (w : World) (file : GoString) : GoString × Option GoString :=
  match w.ReadFile file with
  | .error err => ([], some (str "failed to read file " ++ file ++ str ": " ++ err))
  | .ok data =>
    let mimeType := DetectContentType data
    if mimeType = str "image/jpeg" then
      (str "data:image/jpeg;base64," ++ EncodeToString data, none)
    else if mimeType = str "image/png" then
      (str "data:image/png;base64," ++ EncodeToString data, none)
    else
      ([], some (str "unsupported mime type " ++ mimeType ++ str " for file " ++ file))

/-- The command line flags. -/
structure Flags where
  BWSAppID : GoString
  BWSAppSecret : GoString
  photoPath : GoString
  image1Path : GoString
  image2Path : GoString

/-- The goroutines that `main` may start. -/
inductive Task where
  | photo
  | image1
  | image2
deriving DecidableEq

/-- The file a task encodes. -/
def Task.path (fl : Flags) : Task → GoString
  | .photo => fl.photoPath
  | .image1 => fl.image1Path
  | .image2 => fl.image2Path

/-- The goroutines `main` starts: photo and image1, and image2 when its path
is not empty. -/
def launched (fl : Flags) : List Task :=
  [.photo, .image1] ++ (if fl.image2Path ≠ [] then [.image2] else [])

/-- The variables the goroutines write: each one its own string and error. -/
structure Slots where
  base64Photo : GoString
  base64Image1 : GoString
  base64Image2 : GoString
  photoErr : Option GoString
  image1Err : Option GoString
  image2Err : Option GoString

/-- The variables as declared: empty strings and `nil` errors. -/
def Slots.zero : Slots :=
  { base64Photo := [], base64Image1 := [], base64Image2 := [],
    photoErr := none, image1Err := none, image2Err := none }

/-- The body of one goroutine: it encodes its file and stores both results. -/
def runTask (w : World) (fl : Flags) (s : Slots) : Task → Slots
  | .photo =>
    let r := imageToBase64 w fl.photoPath
    { s with base64Photo := r.1, photoErr := r.2 }
  | .image1 =>
    let r := imageToBase64 w fl.image1Path
    { s with base64Image1 := r.1, image1Err := r.2 }
  | .image2 =>
    let r := imageToBase64 w fl.image2Path
    { s with base64Image2 := r.1, image2Err := r.2 }

/-- The variables when `wg.Wait()` returns, the goroutines having run in the
order `sched`. -/
def runTasks (w : World) (fl : Flags) (sched : List Task) : Slots :=
  sched.foldl (runTask w fl) Slots.zero

/-- The lines printed for the errors of one sample. -/
def printErrors (errs : List SampleError) : List Event :=
  errs.map (fun err => .Stdout (str "\tCode: " ++ err.Code ++ str ", Message: " ++ err.Message
    ++ str ", Details: " ++ err.Details ++ str "\n"))

/-- The loop of `main` over `result.Samples`, from index `i` on. -/
def printSamples (i : Nat) : List Sample → List Event
  | [] => []
  | sample :: rest =>
    (if sample.Errors.length > 0 then
      .Stdout (str "Sample " ++ formatInt (i + 1) ++ str " Errors:\n") :: printErrors sample.Errors
    else []) ++ printSamples (i + 1) rest

/-- The part of `main` after `sendRequest` returned: the elapsed time, an
empty line, and then either the decoded result or the fatal status message. -/
def handleResponse (w : World) (statusCode : Nat) (response : List Byte) : Outcome :=
  let head : List Event :=
    [.Stdout (str "Total execution time: " ++ w.Since ++ str "\n"), .Stdout (str "\n")]
  if statusCode = 200 then
    let r := w.Unmarshal response PhotoVerifyResponse.zero
    let result := r.1
    let logged : List Event :=
      match r.2 with
      | some _ => [logOutput (str "Failed to unmarshal JSON response.\n")]
      | none => []
    { trace := head ++ [.Unmarshal response] ++ logged
        ++ [.Stdout (str "Verification Status: " ++ formatBool result.Success ++ str "\n"),
            .Stdout (str "Verification Accuracy Level: " ++ formatInt result.AccuracyLevel
              ++ str "\n")]
        ++ printSamples 0 result.Samples,
      exitCode := 0 }
  else
    Fatal head (str "Received HTTP response code != 200: " ++ formatInt statusCode)

/-- The message of the usage error. -/
def usage : GoString :=
  str "Usage: -BWSAppID <BWSAppID> -BWSAppSecret <BWSAppSecret> -photo <photo> -image1 <image1> [-image2 <image2>]"

/-- The part of `main` after `wg.Wait()` returned: the three errors are checked
in the order photo, image1, image2, then the request is sent and the response
handled. `reads` are the actions of the goroutines and `s` the variables they
left. -/
def afterWait (w : World) (fl : Flags) (reads : List Event) (s : Slots) : Outcome :=
  match s.photoErr with
  | some photoErr => Fatal reads (str "Failed to encode photo: " ++ photoErr)
  | none =>
  match s.image1Err with
  | some image1Err => Fatal reads (str "Failed to encode image1: " ++ image1Err)
  | none =>
  match s.image2Err with
  | some image2Err => Fatal reads (str "Failed to encode image2: " ++ image2Err)
  | none =>
  match sendRequest w (str "POST") fl.BWSAppID fl.BWSAppSecret
      s.base64Photo s.base64Image1 s.base64Image2 with
  | (sent, none) => { trace := reads ++ sent, exitCode := 1 }
  | (sent, some (statusCode, response)) =>
    let o := handleResponse w statusCode response
    { trace := reads ++ sent ++ o.trace, exitCode := o.exitCode }

/-- The function `main`, for the parsed flags and the order `sched` in which
the goroutines ran. -/
def main (w : World) (fl : Flags) (sched : List Task) : Outcome :=
  if fl.BWSAppID = [] ∨ fl.BWSAppSecret = [] ∨ fl.photoPath = [] ∨ fl.image1Path = [] then
    Fatal [] usage
  else
    afterWait w fl (sched.map (fun t => .ReadFile (t.path fl))) (runTasks w fl sched)

/-! ## Auxiliary definitions of the statements -/

/-- The JPEG signature `FF D8 FF`. -/
def jpegSignature : List Byte := [0xFF, 0xD8, 0xFF]

/-- The PNG signature `89 50 4E 47 0D 0A 1A 0A`. -/
def pngSignature : List Byte := [0x89, 0x50, 0x4E, 0x47, 0x0D, 0x0A, 0x1A, 0x0A]

/-- A signature is refuted by the first `n` bytes `pre` of the data alone. -/
def refutedBy (n : Nat) (pre : List Byte) : sniffSig → Bool
  | .htmlSig h => !htmlLoop (h.take n) pre
  | .maskedSig mask pat _ _ => !maskedLoop (pat.take n) (mask.take n) pre
  | .exactSig sig _ => !HasPrefix pre (sig.take n)
  | .mp4Sig => false
  | .textSig => false

/-- The request `sendRequest` builds from its arguments. -/
def builtRequest (method BWSAppID BWSAppSecret photo liveimage1 liveimage2 : GoString) :
    Request :=
  { method := method, url := str "https://bws.bioid.com/extension/photoverify2",
    header := [(str "Content-Type", str "application/json;charset=utf-8"),
      (str "Authorization", str "Basic " ++ basicAuth BWSAppID BWSAppSecret)],
    jsonData := [(str "idphoto", photo), (str "liveimage1", liveimage1)]
      ++ (if liveimage2 ≠ [] then [(str "liveimage2", liveimage2)] else []) }

/-! ## Sample inputs -/

/-- A world in which every file is a small JPEG, the service answers 200 and
the body decodes to a successful verification of accuracy 199. -/
def jpegWorld : World :=
  { ReadFile := fun _ => .ok [0xFF, 0xD8, 0xFF, 0xE0],
    NewRequest := fun _ _ => none,
    Do := fun _ => .ok (200, .ok (str "\x7b\"Success\":true,\"AccuracyLevel\":199,\"Samples\":[]\x7d")),
    Unmarshal := fun _ r => ({ r with Success := true, AccuracyLevel := 199, Samples := [] }, none),
    Since := str "1.5s" }

/-- A world in which every file is empty. -/
def emptyFileWorld : World :=
  { jpegWorld with ReadFile := fun _ => .ok [] }

/-- A world in which the service answers 500 with a body of the expected shape. -/
def status500World : World :=
  { jpegWorld with
    Do := fun _ => .ok (500, .ok (str "\x7b\"Success\":true,\"AccuracyLevel\":199,\"Samples\":[]\x7d")) }

/-- A world in which the service answers 200 with a body that is not JSON, so
that decoding leaves the result untouched and reports an error. -/
def notJSONWorld : World :=
  { jpegWorld with
    Do := fun _ => .ok (200, .ok (str "not json")),
    Unmarshal := fun _ r =>
      (r, some (str "invalid character 'o' in literal null (expecting 'u')")) }

/-- The sample of the second example of the specification: the one error E1,
low quality, blur. -/
def blurSample : Sample :=
  { Errors := [⟨str "E1", str "low quality", str "blur"⟩],
    EyeCenters := ⟨0, 0, 0, 0⟩ }

/-- A world in which the decoded result is the second example of the
specification: no success, accuracy 50 and the one sample `blurSample`. -/
def oneErrorWorld : World :=
  { jpegWorld with
    Unmarshal := fun _ r =>
      ({ r with Success := false, AccuracyLevel := 50, Samples := [blurSample] }, none) }

/-- Flags with the four required arguments and no second live image. -/
def twoImageFlags : Flags :=
  { BWSAppID := str "id", BWSAppSecret := str "secret", photoPath := str "photo.jpg",
    image1Path := str "live1.jpg", image2Path := [] }

/-- Flags with all five arguments. -/
def threeImageFlags : Flags :=
  { twoImageFlags with image2Path := str "live2.jpg" }

/-! ## The rendering, as the specification words it -/

/-- The line of one error: its code, message and details. -/
def specErrorLine (e : SampleError) : GoString :=
  str "\tCode: " ++ e.Code ++ str ", Message: " ++ e.Message ++ str ", Details: " ++ e.Details
    ++ str "\n"

/-- The lines of the sample at 0-based position `p.1`: nothing when it has no
errors, otherwise a header with the 1-based index and one line per error. -/
def specSampleLines (p : Nat × Sample) : List GoString :=
  if p.2.Errors.length = 0 then []
  else (str "Sample " ++ formatInt (p.1 + 1) ++ str " Errors:\n") :: p.2.Errors.map specErrorLine

/-- The lines of a decoded result: the success flag, the accuracy level, and
the lines of the samples in order. -/
def specResultLines (result : PhotoVerifyResponse) : List GoString :=
  [str "Verification Status: " ++ formatBool result.Success ++ str "\n",
   str "Verification Accuracy Level: " ++ formatInt result.AccuracyLevel ++ str "\n"]
  ++ result.Samples.enum.flatMap specSampleLines

/-! # Theorems -/

/-! ### Round trip of the base64 codec -/

theorem decodeByte_encodeByte_fin :
    ∀ n : Fin 64, decodeByte (encodeByte n.val) = some n.val ∧ encodeByte n.val ≠ StdPadding := by
  decide

theorem decodeByte_encodeByte (v : Nat) : decodeByte (encodeByte v) = some (v % 64) := by
  have h := (decodeByte_encodeByte_fin ⟨v % 64, Nat.mod_lt _ (by decide)⟩).1
  have e : encodeByte (v % 64) = encodeByte v := by simp [encodeByte]
  simpa [e] using h

theorem encodeByte_ne_padding (v : Nat) : encodeByte v ≠ StdPadding := by
  have h := (decodeByte_encodeByte_fin ⟨v % 64, Nat.mod_lt _ (by decide)⟩).2
  have e : encodeByte (v % 64) = encodeByte v := by simp [encodeByte]
  simpa [e] using h

theorem byte_ofNat_eq (a : Byte) (n : Nat) (h : n % 256 = a.val) :
    (Fin.ofNat n : Byte) = a := by
  apply Fin.ext
  simpa [Fin.ofNat] using h

theorem Decode_Encode (data : List Byte) : Decode (Encode data) = some data := by
  induction data using Encode.induct with
  | case1 => simp [Encode, Decode]
  | case2 a =>
    have ha := a.isLt
    simp only [Encode, Decode, decodeByte_encodeByte, encodeByte_ne_padding]
    simp
    apply byte_ofNat_eq
    omega
  | case3 a b =>
    have ha := a.isLt
    have hb := b.isLt
    simp only [Encode, Decode, decodeByte_encodeByte, encodeByte_ne_padding]
    simp
    constructor <;> apply byte_ofNat_eq <;> omega
  | case4 a b c rest ih =>
    have ha := a.isLt
    have hb := b.isLt
    have hc := c.isLt
    simp only [Encode, Decode, decodeByte_encodeByte, encodeByte_ne_padding, ih]
    simp
    refine ⟨?_, ?_, ?_⟩ <;> apply byte_ofNat_eq <;> omega

theorem Decode_example : Decode (str "aWQ6c2VjcmV0") = some (str "id:secret") := by
  decide

theorem Decode_rejects_bad_input :
    Decode (str "aWQ") = none ∧ Decode (str "aW=6") = none ∧ Decode (str "a*Q6") = none := by
  decide

theorem basicAuth_example : basicAuth (str "id") (str "secret") = str "aWQ6c2VjcmV0" := by
  decide

/-! ### Content sniffing of the two supported signatures -/

theorem htmlLoop_take (h : List Byte) : ∀ (n : Nat) (data : List Byte),
    htmlLoop (h.take n) (data.take n) = false → htmlLoop h data = false := by
  induction h with
  | nil => intro n data hf; simp [htmlLoop] at hf
  | cons b h ih =>
    intro n data hf
    cases n with
    | zero => simp [htmlLoop] at hf
    | succ n =>
      cases data with
      | nil => simp [htmlLoop]
      | cons d ds =>
        simp only [List.take_succ_cons, htmlLoop] at hf ⊢
        generalize (if 65 ≤ b.val ∧ b.val ≤ 90 then d &&& 0xDF else d) = db1 at hf ⊢
        by_cases hne : b ≠ db1
        · rw [if_pos hne]
        · rw [if_neg hne] at hf ⊢
          exact ih n ds hf

theorem maskedLoop_take (pat : List Byte) : ∀ (n : Nat) (mask data : List Byte),
    maskedLoop (pat.take n) (mask.take n) (data.take n) = false →
      maskedLoop pat mask data = false := by
  induction pat with
  | nil => intro n mask data hf; simp [maskedLoop] at hf
  | cons pb pat ih =>
    intro n mask data hf
    cases n with
    | zero => simp [maskedLoop] at hf
    | succ n =>
      cases mask with
      | nil => simp [maskedLoop]
      | cons m ms =>
        cases data with
        | nil => simp [maskedLoop]
        | cons d ds =>
          simp only [List.take_succ_cons, maskedLoop] at hf ⊢
          split
          · rfl
          · rename_i hne
            rw [if_neg hne] at hf
            exact ih n ms ds hf

theorem HasPrefix_take (sig : List Byte) : ∀ (n : Nat) (data : List Byte),
    HasPrefix (data.take n) (sig.take n) = false → HasPrefix data sig = false := by
  induction sig with
  | nil => intro n data hf; simp [HasPrefix] at hf
  | cons p sig ih =>
    intro n data hf
    cases n with
    | zero => simp [HasPrefix] at hf
    | succ n =>
      cases data with
      | nil => simp [HasPrefix]
      | cons d ds =>
        simp only [List.take_succ_cons, HasPrefix, Bool.and_eq_false_imp,
          decide_eq_true_eq] at hf ⊢
        intro hd
        exact ih n ds (hf hd)

theorem HasPrefix_append (sig rest : List Byte) : HasPrefix (sig ++ rest) sig = true := by
  induction sig with
  | nil => cases rest <;> simp [HasPrefix]
  | cons p sig ih => simp [HasPrefix, ih]

theorem matchSig_of_refutedBy (pre rest : List Byte) (sig : sniffSig)
    (h : refutedBy pre.length pre sig = true) : sig.matchSig (pre ++ rest) 0 = [] := by
  have htake : (pre ++ rest).take pre.length = pre := by simp
  cases sig with
  | htmlSig hs =>
    simp only [refutedBy, Bool.not_eq_true_eq_eq_false] at h
    have := htmlLoop_take hs pre.length (pre ++ rest) (by rw [htake]; exact h)
    simp [sniffSig.matchSig, htmlSigMatch, this]
  | maskedSig mask pat skipWS ct =>
    simp only [refutedBy, Bool.not_eq_true_eq_eq_false] at h
    have := maskedLoop_take pat pre.length mask (pre ++ rest) (by rw [htake]; exact h)
    simp [sniffSig.matchSig, maskedSigMatch, this]
  | exactSig sg ct =>
    simp only [refutedBy, Bool.not_eq_true_eq_eq_false] at h
    have := HasPrefix_take sg pre.length (pre ++ rest) (by rw [htake]; exact h)
    simp [sniffSig.matchSig, exactSigMatch, this]
  | mp4Sig => simp [refutedBy] at h
  | textSig => simp [refutedBy] at h

theorem sniffLoop_skip (data : List Byte) (f : Nat) (sigs more : List sniffSig)
    (h : ∀ sig ∈ sigs, sig.matchSig data f = []) :
    sniffLoop data f (sigs ++ more) = sniffLoop data f more := by
  induction sigs with
  | nil => rfl
  | cons sig sigs ih =>
    have h1 := h sig (List.mem_cons_self _ _)
    simp only [List.cons_append, sniffLoop, h1, ne_eq, not_true_eq_false, if_false]
    exact ih (fun s hs => h s (List.mem_cons_of_mem _ hs))

theorem sniffLoop_refuted (pre rest : List Byte) (sigs more : List sniffSig)
    (h : sigs.all (refutedBy pre.length pre) = true) :
    sniffLoop (pre ++ rest) 0 (sigs ++ more) = sniffLoop (pre ++ rest) 0 more := by
  apply sniffLoop_skip
  intro sig hsig
  exact matchSig_of_refutedBy pre rest sig (List.all_eq_true.mp h sig hsig)

theorem sniffed_prefix (pre rest : List Byte) (h : pre.length ≤ sniffLen) :
    ∃ rest1, (if (pre ++ rest).length > sniffLen then (pre ++ rest).take sniffLen
      else pre ++ rest) = pre ++ rest1 := by
  split
  · refine ⟨rest.take (sniffLen - pre.length), ?_⟩
    rw [List.take_append_eq_append_take, List.take_of_length_le h]
  · exact ⟨rest, rfl⟩

theorem sniffLoop_exact (sig rest : List Byte) (ct : GoString) (f : Nat)
    (sigs : List sniffSig) (hct : ct ≠ []) :
    sniffLoop (sig ++ rest) f (.exactSig sig ct :: sigs) = ct := by
  have hm : (sniffSig.exactSig sig ct).matchSig (sig ++ rest) f = ct := by
    simp only [sniffSig.matchSig, exactSigMatch, HasPrefix_append, if_true]
  rw [sniffLoop]
  simp only [hm, ne_eq, hct, not_false_eq_true, if_true]

theorem DetectContentType_jpeg (rest : List Byte) :
    DetectContentType (jpegSignature ++ rest) = str "image/jpeg" := by
  obtain ⟨rest1, h1⟩ := sniffed_prefix jpegSignature rest (by decide)
  simp only [DetectContentType, h1]
  have hf : firstNonWS (jpegSignature ++ rest1) = 0 := by
    simp [jpegSignature, firstNonWS, isWS]
  have hs : sniffSignatures = (sniffSignaturesText ++ sniffSignaturesImage.take 7)
      ++ (.exactSig jpegSignature (str "image/jpeg") :: sniffSignaturesRest) := by
    simp [sniffSignatures, sniffSignaturesImage, jpegSignature]
  rw [hf, hs, sniffLoop_refuted jpegSignature rest1 _ _ (by decide)]
  exact sniffLoop_exact jpegSignature rest1 _ 0 _ (by decide)

theorem DetectContentType_png (rest : List Byte) :
    DetectContentType (pngSignature ++ rest) = str "image/png" := by
  obtain ⟨rest1, h1⟩ := sniffed_prefix pngSignature rest (by decide)
  simp only [DetectContentType, h1]
  have hf : firstNonWS (pngSignature ++ rest1) = 0 := by
    simp [pngSignature, firstNonWS, isWS]
  have hs : sniffSignatures = (sniffSignaturesText ++ sniffSignaturesImage.take 6)
      ++ (.exactSig pngSignature (str "image/png")
        :: .exactSig [0xFF, 0xD8, 0xFF] (str "image/jpeg") :: sniffSignaturesRest) := by
    have hb : ([0x89] ++ str "PNG" ++ [0x0D, 0x0A, 0x1A, 0x0A] : List Byte) = pngSignature := by
      decide
    simp only [sniffSignatures, sniffSignaturesImage, hb]
    simp
  rw [hf, hs, sniffLoop_refuted pngSignature rest1 _ _ (by decide)]
  exact sniffLoop_exact pngSignature rest1 _ 0 _ (by decide)

/-! ### The image encoder -/

/-- C1: for every readable file whose bytes begin with the JPEG signature
`FF D8 FF` or the PNG signature `89 50 4E 47 0D 0A 1A 0A`, `imageToBase64`
returns no error and exactly `data:<mime>;base64,` followed by the standard
padded base64 encoding of the whole file, where `<mime>` is `image/jpeg` for
the first and `image/png` for the second signature; dropping that prefix and
base64-decoding what remains gives back the bytes of the file. -/
theorem imageToBase64_supported_roundtrip (w : World) (file : GoString) (data : List Byte)
    (hread : w.ReadFile file = .ok data)
    (hsig : jpegSignature <+: data ∨ pngSignature <+: data) :
    ∃ mime : GoString,
      (jpegSignature <+: data → mime = str "image/jpeg") ∧
      (pngSignature <+: data → mime = str "image/png") ∧
      imageToBase64 w file
        = (str "data:" ++ mime ++ str ";base64," ++ EncodeToString data, none) ∧
      Decode ((imageToBase64 w file).1.drop (str "data:" ++ mime ++ str ";base64,").length)
        = some data := by
  have hj : str "data:" ++ str "image/jpeg" ++ str ";base64," = str "data:image/jpeg;base64," := by
    decide
  have hp : str "data:" ++ str "image/png" ++ str ";base64," = str "data:image/png;base64," := by
    decide
  have hne : str "image/png" ≠ str "image/jpeg" := by decide
  rcases hsig with ⟨rest, rfl⟩ | ⟨rest, rfl⟩
  · refine ⟨str "image/jpeg", fun _ => rfl, ?_, ?_, ?_⟩
    · rintro ⟨t, ht⟩
      simp [pngSignature, jpegSignature] at ht
    · simp only [imageToBase64, hread, DetectContentType_jpeg, if_true, hj]
    · simp only [imageToBase64, hread, DetectContentType_jpeg, if_true, hj]
      rw [List.drop_left]
      exact Decode_Encode _
  · refine ⟨str "image/png", ?_, fun _ => rfl, ?_, ?_⟩
    · rintro ⟨t, ht⟩
      simp [pngSignature, jpegSignature] at ht
    · simp only [imageToBase64, hread, DetectContentType_png, if_true, hp, hne, if_false]
    · simp only [imageToBase64, hread, DetectContentType_png, if_true, hp, hne, if_false]
      rw [List.drop_left]
      exact Decode_Encode _

/-- Witness of C1: a four-byte JPEG file. -/
theorem imageToBase64_supported_roundtrip_witness :
    (jpegWorld.ReadFile (str "photo.jpg") = .ok [0xFF, 0xD8, 0xFF, 0xE0]
      ∧ (jpegSignature <+: [0xFF, 0xD8, 0xFF, 0xE0] ∨ pngSignature <+: [0xFF, 0xD8, 0xFF, 0xE0]))
    ∧ ∃ mime : GoString,
      (jpegSignature <+: ([0xFF, 0xD8, 0xFF, 0xE0] : List Byte) → mime = str "image/jpeg") ∧
      (pngSignature <+: ([0xFF, 0xD8, 0xFF, 0xE0] : List Byte) → mime = str "image/png") ∧
      imageToBase64 jpegWorld (str "photo.jpg")
        = (str "data:" ++ mime ++ str ";base64," ++ EncodeToString [0xFF, 0xD8, 0xFF, 0xE0], none) ∧
      Decode ((imageToBase64 jpegWorld (str "photo.jpg")).1.drop
          (str "data:" ++ mime ++ str ";base64,").length)
        = some [0xFF, 0xD8, 0xFF, 0xE0] :=
  ⟨⟨rfl, Or.inl ⟨[0xE0], rfl⟩⟩,
    imageToBase64_supported_roundtrip jpegWorld (str "photo.jpg") [0xFF, 0xD8, 0xFF, 0xE0] rfl
      (Or.inl ⟨[0xE0], rfl⟩)⟩

/-- C2: for every readable file whose detected MIME type is neither
`image/jpeg` nor `image/png`, `imageToBase64` returns the empty string and an
error whose message is `unsupported mime type <type> for file <path>`, so it
contains the detected type and the path; the empty file is such a file; and
the call succeeds if and only if the detected type is one of the two. -/
theorem imageToBase64_unsupported (w : World) (file : GoString) (data : List Byte)
    (hread : w.ReadFile file = .ok data) :
    ((imageToBase64 w file).2 = none ↔
      (DetectContentType data = str "image/jpeg" ∨ DetectContentType data = str "image/png")) ∧
    (¬ (DetectContentType data = str "image/jpeg" ∨ DetectContentType data = str "image/png") →
      ∃ msg : GoString, imageToBase64 w file = ([], some msg) ∧
        msg = str "unsupported mime type " ++ DetectContentType data ++ str " for file " ++ file ∧
        DetectContentType data <:+: msg ∧ file <:+: msg) ∧
    (data = [] →
      ¬ (DetectContentType data = str "image/jpeg" ∨ DetectContentType data = str "image/png")) := by
  refine ⟨?_, ?_, ?_⟩
  · simp only [imageToBase64, hread]
    by_cases h1 : DetectContentType data = str "image/jpeg"
    · simp [h1]
    · by_cases h2 : DetectContentType data = str "image/png"
      · have hne : str "image/png" ≠ str "image/jpeg" := by decide
        simp [h2, hne]
      · simp [h1, h2]
  · intro h
    have h1 : DetectContentType data ≠ str "image/jpeg" := fun e => h (Or.inl e)
    have h2 : DetectContentType data ≠ str "image/png" := fun e => h (Or.inr e)
    refine ⟨_, ?_, rfl, ?_, ?_⟩
    · simp only [imageToBase64, hread, h1, h2, if_false]
    · exact ⟨str "unsupported mime type ", str " for file " ++ file, by simp⟩
    · exact ⟨str "unsupported mime type " ++ DetectContentType data ++ str " for file ", [],
        by simp⟩
  · rintro rfl
    decide

/-- Witness of C2: the empty file. -/
theorem imageToBase64_unsupported_witness :
    emptyFileWorld.ReadFile (str "empty.jpg") = .ok [] ∧
    imageToBase64 emptyFileWorld (str "empty.jpg")
      = ([], some (str "unsupported mime type text/plain; charset=utf-8 for file empty.jpg")) ∧
    ¬ ((imageToBase64 emptyFileWorld (str "empty.jpg")).2 = none) :=
  ⟨rfl, by decide,
    fun h => (imageToBase64_unsupported emptyFileWorld (str "empty.jpg") [] rfl).2.2 rfl
      ((imageToBase64_unsupported emptyFileWorld (str "empty.jpg") [] rfl).1.mp h)⟩

/-! ### The credential codec -/

/-- C8: for every application ID and secret, `basicAuth id secret` is the
standard base64 encoding of the bytes of `id`, a colon and `secret`; decoding
it gives `<id>:<secret>` back; and equal inputs give equal credentials. -/
theorem basicAuth_spec (id secret : GoString) :
    basicAuth id secret = EncodeToString (id ++ str ":" ++ secret) ∧
    Decode (basicAuth id secret) = some (id ++ str ":" ++ secret) ∧
    (∀ id1 secret1 : GoString, id1 = id → secret1 = secret →
      basicAuth id1 secret1 = basicAuth id secret) := by
  refine ⟨rfl, Decode_Encode _, ?_⟩
  rintro _ _ rfl rfl
  rfl

/-! ### The goroutines and the barrier -/

theorem foldl_runTask (w : World) (fl : Flags) (sched : List Task) : ∀ s : Slots,
    sched.foldl (runTask w fl) s =
      { base64Photo := if Task.photo ∈ sched then (imageToBase64 w fl.photoPath).1
          else s.base64Photo,
        base64Image1 := if Task.image1 ∈ sched then (imageToBase64 w fl.image1Path).1
          else s.base64Image1,
        base64Image2 := if Task.image2 ∈ sched then (imageToBase64 w fl.image2Path).1
          else s.base64Image2,
        photoErr := if Task.photo ∈ sched then (imageToBase64 w fl.photoPath).2 else s.photoErr,
        image1Err := if Task.image1 ∈ sched then (imageToBase64 w fl.image1Path).2
          else s.image1Err,
        image2Err := if Task.image2 ∈ sched then (imageToBase64 w fl.image2Path).2
          else s.image2Err } := by
  induction sched with
  | nil => intro s; simp
  | cons t sched ih =>
    intro s
    rw [List.foldl_cons, ih]
    cases t <;> by_cases hp : Task.photo ∈ sched <;> by_cases h1 : Task.image1 ∈ sched <;>
      by_cases h2 : Task.image2 ∈ sched <;> simp [runTask, hp, h1, h2]

theorem runTasks_of_perm (w : World) (fl : Flags) (sched : List Task)
    (hs : sched.Perm (launched fl)) :
    runTasks w fl sched =
      { base64Photo := (imageToBase64 w fl.photoPath).1,
        base64Image1 := (imageToBase64 w fl.image1Path).1,
        base64Image2 := if fl.image2Path ≠ [] then (imageToBase64 w fl.image2Path).1 else [],
        photoErr := (imageToBase64 w fl.photoPath).2,
        image1Err := (imageToBase64 w fl.image1Path).2,
        image2Err := if fl.image2Path ≠ [] then (imageToBase64 w fl.image2Path).2 else none } := by
  have hp : Task.photo ∈ sched := hs.mem_iff.mpr (by simp [launched])
  have h1 : Task.image1 ∈ sched := hs.mem_iff.mpr (by simp [launched])
  have h2 : Task.image2 ∈ sched ↔ fl.image2Path ≠ [] := by
    rw [hs.mem_iff]
    by_cases h : fl.image2Path = [] <;> simp [launched, h]
  rw [runTasks, foldl_runTask]
  by_cases h : fl.image2Path = []
  · have : Task.image2 ∉ sched := fun hm => h2.mp hm h
    simp [hp, h1, this, h, Slots.zero]
  · have : Task.image2 ∈ sched := h2.mpr h
    simp [hp, h1, this, h, Slots.zero]

theorem imageToBase64_ok_ne_nil (w : World) (file : GoString)
    (h : (imageToBase64 w file).2 = none) : (imageToBase64 w file).1 ≠ [] := by
  have hj : str "data:image/jpeg;base64," ≠ [] := by decide
  have hp : str "data:image/png;base64," ≠ [] := by decide
  unfold imageToBase64 at h ⊢
  split
  · rename_i err he
    simp [he] at h
  · rename_i data he
    simp only [he] at h
    by_cases c1 : DetectContentType data = str "image/jpeg"
    · simp only [c1, if_true]
      exact List.append_ne_nil_of_left_ne_nil hj _
    · by_cases c2 : DetectContentType data = str "image/png"
      · simp only [c1, c2, if_true, if_false]
        exact List.append_ne_nil_of_left_ne_nil hp _
      · simp [c1, c2] at h

/-! ### The shape of a run -/

theorem sendRequest_Do (w : World) (method id secret photo l1 l2 : GoString) (req : Request)
    (hreq : Event.Do req ∈ (sendRequest w method id secret photo l1 l2).1) :
    req = builtRequest method id secret photo l1 l2 := by
  unfold sendRequest at hreq
  have hv : (if l2 ≠ [] then [(str "idphoto", photo), (str "liveimage1", l1)]
        ++ [(str "liveimage2", l2)] else [(str "idphoto", photo), (str "liveimage1", l1)])
      = [(str "idphoto", photo), (str "liveimage1", l1)]
        ++ (if l2 ≠ [] then [(str "liveimage2", l2)] else []) := by
    split <;> simp
  simp only [hv] at hreq
  split at hreq
  · simp [logOutput] at hreq
  · split at hreq <;> simpa [logOutput, builtRequest] using hreq

theorem sendRequest_ok (w : World) (method id secret photo l1 l2 : GoString)
    (status : Nat) (body : List Byte)
    (hreq : Event.Do (builtRequest method id secret photo l1 l2)
      ∈ (sendRequest w method id secret photo l1 l2).1)
    (hdo : w.Do (builtRequest method id secret photo l1 l2) = .ok (status, .ok body)) :
    sendRequest w method id secret photo l1 l2
      = ([.NewRequest method (str "https://bws.bioid.com/extension/photoverify2")
            (builtRequest method id secret photo l1 l2).jsonData,
          .Do (builtRequest method id secret photo l1 l2)], some (status, body)) := by
  unfold sendRequest at hreq ⊢
  have hv : (if l2 ≠ [] then [(str "idphoto", photo), (str "liveimage1", l1)]
        ++ [(str "liveimage2", l2)] else [(str "idphoto", photo), (str "liveimage1", l1)])
      = [(str "idphoto", photo), (str "liveimage1", l1)]
        ++ (if l2 ≠ [] then [(str "liveimage2", l2)] else []) := by
    split <;> simp
  simp only [hv] at hreq ⊢
  unfold builtRequest at hdo
  cases hn : w.NewRequest method (str "https://bws.bioid.com/extension/photoverify2") with
  | some err => simp [hn, logOutput] at hreq
  | none => simp only [hn, hdo, builtRequest]

theorem Do_not_mem_handleResponse (w : World) (status : Nat) (body : List Byte) (req : Request) :
    Event.Do req ∉ (handleResponse w status body).trace := by
  have hps : ∀ (l : List Sample) (i : Nat), Event.Do req ∉ printSamples i l := by
    intro l
    induction l with
    | nil => intro i; simp [printSamples]
    | cons a l ih =>
      intro i
      simp only [printSamples, List.mem_append, not_or]
      refine ⟨?_, ih _⟩
      split <;> simp [printErrors]
  unfold handleResponse
  split
  · simp only [List.mem_append, not_or]
    refine ⟨⟨⟨⟨by simp, by simp⟩, ?_⟩, by simp⟩, hps _ _⟩
    split <;> simp [logOutput]
  · simp [Fatal, logOutput]

theorem stdout_reads (fl : Flags) (sched : List Task) (T : List Event) (c d : Nat) :
    (Outcome.mk (sched.map (fun t => Event.ReadFile (t.path fl)) ++ T) c).stdout
      = (Outcome.mk T d).stdout := by
  simp only [Outcome.stdout, List.filterMap_append]
  have : List.filterMap (fun e => match e with | Event.Stdout t => some t | _ => none)
      (sched.map (fun t => Event.ReadFile (t.path fl))) = [] := by
    induction sched with
    | nil => rfl
    | cons a l ih => simp
  simp [this]

theorem stderr_reads (fl : Flags) (sched : List Task) (T : List Event) (c d : Nat) :
    (Outcome.mk (sched.map (fun t => Event.ReadFile (t.path fl)) ++ T) c).stderr
      = (Outcome.mk T d).stderr := by
  simp only [Outcome.stderr, List.filterMap_append]
  have : List.filterMap (fun e => match e with | Event.Stderr t => some t | _ => none)
      (sched.map (fun t => Event.ReadFile (t.path fl))) = [] := by
    induction sched with
    | nil => rfl
    | cons a l ih => simp
  simp [this]

theorem afterWait_reads (w : World) (fl : Flags) (reads : List Event) (s : Slots) :
    afterWait w fl reads s
      = { trace := reads ++ (afterWait w fl [] s).trace,
          exitCode := (afterWait w fl [] s).exitCode } := by
  unfold afterWait
  split
  · simp [Fatal]
  · split
    · simp [Fatal]
    · split
      · simp [Fatal]
      · split <;> simp

theorem afterWait_of_Do (w : World) (fl : Flags) (s : Slots) (req : Request)
    (hreq : Event.Do req ∈ (afterWait w fl [] s).trace) :
    s.photoErr = none ∧ s.image1Err = none ∧ s.image2Err = none ∧
    req = builtRequest (str "POST") fl.BWSAppID fl.BWSAppSecret
      s.base64Photo s.base64Image1 s.base64Image2 ∧
    Event.Do req ∈ (sendRequest w (str "POST") fl.BWSAppID fl.BWSAppSecret
      s.base64Photo s.base64Image1 s.base64Image2).1 := by
  unfold afterWait at hreq
  cases hp : s.photoErr with
  | some e => simp [hp, Fatal, logOutput] at hreq
  | none =>
    cases h1 : s.image1Err with
    | some e => simp [hp, h1, Fatal, logOutput] at hreq
    | none =>
      cases h2 : s.image2Err with
      | some e => simp [hp, h1, h2, Fatal, logOutput] at hreq
      | none =>
        simp only [hp, h1, h2] at hreq
        have hin : Event.Do req ∈ (sendRequest w (str "POST") fl.BWSAppID fl.BWSAppSecret
            s.base64Photo s.base64Image1 s.base64Image2).1 := by
          split at hreq
          · rename_i sent hsr
            rw [hsr]
            simp at hreq
            exact hreq
          · rename_i sent statusCode response hsr
            rw [hsr]
            simp only [List.nil_append, List.mem_append] at hreq
            rcases hreq with h | h
            · exact h
            · exact absurd h (Do_not_mem_handleResponse _ _ _ _)
        exact ⟨rfl, rfl, rfl, sendRequest_Do _ _ _ _ _ _ _ _ hin, hin⟩

theorem afterWait_of_response (w : World) (fl : Flags) (s : Slots) (req : Request)
    (status : Nat) (body : List Byte)
    (hreq : Event.Do req ∈ (afterWait w fl [] s).trace)
    (hdo : w.Do req = .ok (status, .ok body)) :
    afterWait w fl [] s
      = { trace := [Event.NewRequest req.method req.url req.jsonData, Event.Do req]
            ++ (handleResponse w status body).trace,
          exitCode := (handleResponse w status body).exitCode } := by
  obtain ⟨hp, h1, h2, hr, hin⟩ := afterWait_of_Do w fl s req hreq
  subst hr
  have hsr := sendRequest_ok w _ _ _ _ _ _ status body hin hdo
  unfold afterWait
  simp only [hp, h1, h2, hsr, List.nil_append]
  rfl

theorem main_of_Do (w : World) (fl : Flags) (sched : List Task) (req : Request)
    (hreq : Event.Do req ∈ (main w fl sched).trace) :
    ¬ (fl.BWSAppID = [] ∨ fl.BWSAppSecret = [] ∨ fl.photoPath = [] ∨ fl.image1Path = []) ∧
    Event.Do req ∈ (afterWait w fl [] (runTasks w fl sched)).trace := by
  unfold main at hreq
  split at hreq
  · simp [Fatal, logOutput] at hreq
  · rename_i hargs
    refine ⟨hargs, ?_⟩
    rw [afterWait_reads] at hreq
    simp at hreq
    exact hreq

theorem main_of_response (w : World) (fl : Flags) (sched : List Task) (req : Request)
    (status : Nat) (body : List Byte)
    (hreq : Event.Do req ∈ (main w fl sched).trace)
    (hdo : w.Do req = .ok (status, .ok body)) :
    main w fl sched
      = { trace := sched.map (fun t => Event.ReadFile (t.path fl))
            ++ ([Event.NewRequest req.method req.url req.jsonData, Event.Do req]
              ++ (handleResponse w status body).trace),
          exitCode := (handleResponse w status body).exitCode } := by
  obtain ⟨hargs, hin⟩ := main_of_Do w fl sched req hreq
  have h := afterWait_of_response w fl _ req status body hin hdo
  unfold main
  rw [if_neg hargs, afterWait_reads, h]

/-! ### Handling the response -/

theorem stdout_printSamples (l : List Sample) : ∀ i : Nat,
    List.filterMap (fun e => match e with | Event.Stdout t => some t | _ => none)
      (printSamples i l) = (l.enumFrom i).flatMap specSampleLines := by
  induction l with
  | nil => intro i; simp [printSamples]
  | cons a l ih =>
    intro i
    have he : List.filterMap (fun e => match e with | Event.Stdout t => some t | _ => none)
        (printErrors a.Errors) = a.Errors.map specErrorLine := by
      simp only [printErrors, List.filterMap_map]
      induction a.Errors with
      | nil => rfl
      | cons x xs ihx => simpa [specErrorLine] using ihx
    simp only [printSamples, List.filterMap_append, ih, List.enumFrom_cons, List.flatMap_cons]
    congr 1
    by_cases h0 : a.Errors.length = 0
    · simp [specSampleLines, h0]
    · have hpos : a.Errors.length > 0 := Nat.pos_of_ne_zero h0
      simp [specSampleLines, h0, hpos, he]

theorem stderr_printSamples (l : List Sample) : ∀ i : Nat,
    List.filterMap (fun e => match e with | Event.Stderr t => some t | _ => none)
      (printSamples i l) = [] := by
  induction l with
  | nil => intro i; simp [printSamples]
  | cons a l ih =>
    intro i
    simp only [printSamples, List.filterMap_append, ih, List.append_nil]
    split
    · simp [printErrors, List.filterMap_map]
    · rfl

theorem handleResponse_200_stdout (w : World) (body : List Byte) :
    (handleResponse w 200 body).stdout
      = (str "Total execution time: " ++ w.Since ++ str "\n") :: str "\n"
          :: specResultLines (w.Unmarshal body PhotoVerifyResponse.zero).1 := by
  have hl : List.filterMap (fun e => match e with | Event.Stdout t => some t | _ => none)
      (match (w.Unmarshal body PhotoVerifyResponse.zero).2 with
        | some _ => [logOutput (str "Failed to unmarshal JSON response.\n")]
        | none => []) = [] := by
    split <;> simp [logOutput]
  simp only [handleResponse, if_true, Outcome.stdout, List.filterMap_append, hl,
    stdout_printSamples, specResultLines, List.enum]
  simp

theorem handleResponse_other (w : World) (status : Nat) (body : List Byte) (h : status ≠ 200) :
    handleResponse w status body
      = Fatal [.Stdout (str "Total execution time: " ++ w.Since ++ str "\n"), .Stdout (str "\n")]
          (str "Received HTTP response code != 200: " ++ formatInt status) := by
  simp [handleResponse, h]

/-- C4: for every status code other than 200 and every body that the transport
returns, the run exits with status 1, the only logged line is
`Received HTTP response code != 200: <code>`, the body is never handed to
`json.Unmarshal`, and standard output holds nothing but the elapsed-time line
and the empty line after it. -/
theorem status_not_200_fails (w : World) (fl : Flags) (sched : List Task) (req : Request)
    (status : Nat) (body : List Byte)
    (hreq : Event.Do req ∈ (main w fl sched).trace)
    (hdo : w.Do req = .ok (status, .ok body))
    (hstatus : status ≠ 200) :
    (main w fl sched).exitCode = 1 ∧
    (main w fl sched).stderr
      = [logText (str "Received HTTP response code != 200: " ++ formatInt status)] ∧
    str "Received HTTP response code != 200: " ++ formatInt status
      <+: logText (str "Received HTTP response code != 200: " ++ formatInt status) ∧
    (∀ d, Event.Unmarshal d ∉ (main w fl sched).trace) ∧
    (main w fl sched).stdout = [str "Total execution time: " ++ w.Since ++ str "\n", str "\n"] := by
  have hm := main_of_response w fl sched req status body hreq hdo
  rw [handleResponse_other w status body hstatus] at hm
  rw [hm]
  refine ⟨rfl, ?_, ?_, ?_, ?_⟩
  · rw [stderr_reads fl sched _ _ 0]
    simp [Outcome.stderr, Fatal, logOutput]
  · unfold logText
    split
    · exact List.prefix_refl _
    · exact List.prefix_append _ _
  · intro d
    simp [Fatal, logOutput]
  · rw [stdout_reads fl sched _ _ 0]
    simp [Outcome.stdout, Fatal, logOutput]

/-- Witness of C4: status 500 with a body of the expected shape. -/
theorem status_not_200_fails_witness :
    (Event.Do (builtRequest (str "POST") (str "id") (str "secret")
        (imageToBase64 status500World (str "photo.jpg")).1
        (imageToBase64 status500World (str "live1.jpg")).1 [])
      ∈ (main status500World twoImageFlags [.image1, .photo]).trace) ∧
    (main status500World twoImageFlags [.image1, .photo]).exitCode = 1 ∧
    (main status500World twoImageFlags [.image1, .photo]).stderr
      = [str "Received HTTP response code != 200: 500\n"] ∧
    (∀ d, Event.Unmarshal d ∉ (main status500World twoImageFlags [.image1, .photo]).trace) ∧
    (main status500World twoImageFlags [.image1, .photo]).stdout
      = [str "Total execution time: 1.5s\n", str "\n"] :=
  have h := status_not_200_fails status500World twoImageFlags [.image1, .photo]
    (builtRequest (str "POST") (str "id") (str "secret")
        (imageToBase64 status500World (str "photo.jpg")).1
        (imageToBase64 status500World (str "live1.jpg")).1 [])
    500 (str "\x7b\"Success\":true,\"AccuracyLevel\":199,\"Samples\":[]\x7d")
    (by decide) rfl (by decide)
  ⟨by decide, h.1, by decide, h.2.2.2.1, by decide⟩

/-- C3, what the code does: when the transport returns status 200 and
`json.Unmarshal` reports an error for the body, the run logs
`Failed to unmarshal JSON response.` and goes on: it prints the verification
status and the accuracy level of the result as the failed decoding left it,
and the process ends with exit status 0, not with a failure. -/
theorem malformed_body_is_not_fatal (w : World) (fl : Flags) (sched : List Task) (req : Request)
    (body : List Byte)
    (hreq : Event.Do req ∈ (main w fl sched).trace)
    (hdo : w.Do req = .ok (200, .ok body))
    (herr : (w.Unmarshal body PhotoVerifyResponse.zero).2 ≠ none) :
    (main w fl sched).exitCode = 0 ∧
    (main w fl sched).stderr = [str "Failed to unmarshal JSON response.\n"] ∧
    (main w fl sched).stdout
      = (str "Total execution time: " ++ w.Since ++ str "\n") :: str "\n"
          :: (str "Verification Status: "
                ++ formatBool (w.Unmarshal body PhotoVerifyResponse.zero).1.Success ++ str "\n")
          :: (str "Verification Accuracy Level: "
                ++ formatInt (w.Unmarshal body PhotoVerifyResponse.zero).1.AccuracyLevel
                ++ str "\n")
          :: (w.Unmarshal body PhotoVerifyResponse.zero).1.Samples.enum.flatMap
                specSampleLines := by
  have hm := main_of_response w fl sched req 200 body hreq hdo
  rw [hm]
  refine ⟨?_, ?_, ?_⟩
  · simp [handleResponse]
  · rw [stderr_reads fl sched _ _ 0]
    obtain ⟨e, he⟩ := Option.ne_none_iff_exists'.mp herr
    have hlog : logText (str "Failed to unmarshal JSON response.\n")
        = str "Failed to unmarshal JSON response.\n" := by decide
    simp [Outcome.stderr, handleResponse, he, List.filterMap_append, stderr_printSamples,
      logOutput, hlog]
  · rw [stdout_reads fl sched _ _ 0]
    have h := handleResponse_200_stdout w body
    simp only [Outcome.stdout, specResultLines] at h ⊢
    simp only [List.filterMap_append, List.filterMap_cons, List.filterMap_nil, List.nil_append,
      List.cons_append]
    simpa using h

/-- Witness of C3: status 200 with the body `not json`. -/
theorem malformed_body_is_not_fatal_witness :
    (Event.Do (builtRequest (str "POST") (str "id") (str "secret")
        (imageToBase64 notJSONWorld (str "photo.jpg")).1
        (imageToBase64 notJSONWorld (str "live1.jpg")).1 [])
      ∈ (main notJSONWorld twoImageFlags [.photo, .image1]).trace) ∧
    (notJSONWorld.Unmarshal (str "not json") PhotoVerifyResponse.zero).2 ≠ none ∧
    (main notJSONWorld twoImageFlags [.photo, .image1]).exitCode = 0 ∧
    (main notJSONWorld twoImageFlags [.photo, .image1]).stderr
      = [str "Failed to unmarshal JSON response.\n"] ∧
    (main notJSONWorld twoImageFlags [.photo, .image1]).stdout
      = [str "Total execution time: 1.5s\n", str "\n", str "Verification Status: false\n",
         str "Verification Accuracy Level: 0\n"] :=
  have h := malformed_body_is_not_fatal notJSONWorld twoImageFlags [.photo, .image1]
    (builtRequest (str "POST") (str "id") (str "secret")
        (imageToBase64 notJSONWorld (str "photo.jpg")).1
        (imageToBase64 notJSONWorld (str "live1.jpg")).1 [])
    (str "not json") (by decide) rfl (by decide)
  ⟨by decide, by decide, h.1, h.2.1, by decide⟩

theorem length_specSampleLines (l : List Sample) : ∀ i : Nat,
    ((l.enumFrom i).flatMap specSampleLines).length
      = (l.filter (fun s => decide (0 < s.Errors.length))).length
        + (l.map (fun s => s.Errors.length)).sum := by
  induction l with
  | nil => intro i; simp
  | cons a l ih =>
    intro i
    simp only [List.enumFrom_cons, List.flatMap_cons, List.length_append, ih, List.map_cons,
      List.sum_cons]
    by_cases h0 : a.Errors.length = 0
    · simp [specSampleLines, h0, List.filter_cons]
    · have hpos : 0 < a.Errors.length := Nat.pos_of_ne_zero h0
      simp [specSampleLines, h0, hpos, List.filter_cons]
      omega

/-- C7, as the code has it: on a run with status 200, standard output is the
elapsed-time line, then one empty line, then the success flag line, then the
accuracy-level line, then, for each sample in order whose error list is not
empty, a header line with the sample's 1-based index followed by one line per
error, in order, with that error's code, message and details; a sample with an
empty error list prints nothing, so the output has four lines, one more per
sample with errors and one more per error. A result of success, accuracy 199
and no samples prints no error line; a result of no success, accuracy 50 and
one sample with the error E1, low quality, blur prints `Sample 1 Errors:` and
one error line. -/
theorem result_rendering (w : World) (fl : Flags) (sched : List Task) (req : Request)
    (body : List Byte)
    (hreq : Event.Do req ∈ (main w fl sched).trace)
    (hdo : w.Do req = .ok (200, .ok body)) :
    (main w fl sched).stdout
      = (str "Total execution time: " ++ w.Since ++ str "\n") :: str "\n"
          :: specResultLines (w.Unmarshal body PhotoVerifyResponse.zero).1 ∧
    (main w fl sched).stdout.length
      = 4 + ((w.Unmarshal body PhotoVerifyResponse.zero).1.Samples.filter
              (fun s => decide (0 < s.Errors.length))).length
          + ((w.Unmarshal body PhotoVerifyResponse.zero).1.Samples.map
              (fun s => s.Errors.length)).sum ∧
    ((w.Unmarshal body PhotoVerifyResponse.zero).1.Success = true →
      (w.Unmarshal body PhotoVerifyResponse.zero).1.AccuracyLevel = 199 →
      (w.Unmarshal body PhotoVerifyResponse.zero).1.Samples = [] →
      (main w fl sched).stdout
        = [str "Total execution time: " ++ w.Since ++ str "\n", str "\n",
           str "Verification Status: true\n", str "Verification Accuracy Level: 199\n"]) ∧
    ((w.Unmarshal body PhotoVerifyResponse.zero).1.Success = false →
      (w.Unmarshal body PhotoVerifyResponse.zero).1.AccuracyLevel = 50 →
      (∀ eye, (w.Unmarshal body PhotoVerifyResponse.zero).1.Samples
        = [⟨[⟨str "E1", str "low quality", str "blur"⟩], eye⟩] →
      (main w fl sched).stdout
        = [str "Total execution time: " ++ w.Since ++ str "\n", str "\n",
           str "Verification Status: false\n", str "Verification Accuracy Level: 50\n",
           str "Sample 1 Errors:\n",
           str "\tCode: E1, Message: low quality, Details: blur\n"])) := by
  have hm := main_of_response w fl sched req 200 body hreq hdo
  have hout : (main w fl sched).stdout
      = (str "Total execution time: " ++ w.Since ++ str "\n") :: str "\n"
          :: specResultLines (w.Unmarshal body PhotoVerifyResponse.zero).1 := by
    rw [hm, stdout_reads fl sched _ _ 0, ← handleResponse_200_stdout w body]
    simp [Outcome.stdout]
  refine ⟨hout, ?_, ?_, ?_⟩
  · rw [hout]
    simp only [List.length_cons, specResultLines, List.length_append, List.length_nil,
      List.enum, length_specSampleLines]
    omega
  · intro hs ha hl
    rw [hout, specResultLines, hs, ha, hl]
    have h1 : str "Verification Status: " ++ formatBool true ++ str "\n"
        = str "Verification Status: true\n" := by decide
    have h2 : str "Verification Accuracy Level: " ++ formatInt 199 ++ str "\n"
        = str "Verification Accuracy Level: 199\n" := by decide
    simp [h1, h2]
  · intro hs ha eye hl
    rw [hout, specResultLines, hs, ha, hl]
    have h1 : str "Verification Status: " ++ formatBool false ++ str "\n"
        = str "Verification Status: false\n" := by decide
    have h2 : str "Verification Accuracy Level: " ++ formatInt 50 ++ str "\n"
        = str "Verification Accuracy Level: 50\n" := by decide
    have h3 : str "Sample " ++ (formatInt 1 ++ str " Errors:\n")
        = str "Sample 1 Errors:\n" := by decide
    have h4 : specErrorLine ⟨str "E1", str "low quality", str "blur"⟩
        = str "\tCode: E1, Message: low quality, Details: blur\n" := by decide
    simp [h1, h2, List.enum, specSampleLines, h3, h4]

/-- Witness of C7: the second example of the specification. -/
theorem result_rendering_witness :
    (Event.Do (builtRequest (str "POST") (str "id") (str "secret")
        (imageToBase64 oneErrorWorld (str "photo.jpg")).1
        (imageToBase64 oneErrorWorld (str "live1.jpg")).1
        (imageToBase64 oneErrorWorld (str "live2.jpg")).1)
      ∈ (main oneErrorWorld threeImageFlags [.image2, .photo, .image1]).trace) ∧
    (main oneErrorWorld threeImageFlags [.image2, .photo, .image1]).stdout
      = [str "Total execution time: 1.5s\n", str "\n",
         str "Verification Status: false\n", str "Verification Accuracy Level: 50\n",
         str "Sample 1 Errors:\n",
         str "\tCode: E1, Message: low quality, Details: blur\n"] :=
  ⟨by decide,
    (result_rendering oneErrorWorld threeImageFlags [.image2, .photo, .image1]
      (builtRequest (str "POST") (str "id") (str "secret")
        (imageToBase64 oneErrorWorld (str "photo.jpg")).1
        (imageToBase64 oneErrorWorld (str "live1.jpg")).1
        (imageToBase64 oneErrorWorld (str "live2.jpg")).1)
      (str "\x7b\"Success\":true,\"AccuracyLevel\":199,\"Samples\":[]\x7d")
      (by decide) rfl).2.2.2 rfl rfl ⟨0, 0, 0, 0⟩ rfl⟩

/-- C7, as stated, fails: with the result of the first example of the
specification, what standard output holds after the elapsed-time line is not
the success flag line followed by the accuracy-level line; an empty line
stands between. -/
theorem result_rendering_counterexample :
    (main jpegWorld twoImageFlags [.photo, .image1]).stdout
      = [str "Total execution time: 1.5s\n", str "\n",
         str "Verification Status: true\n", str "Verification Accuracy Level: 199\n"] ∧
    (main jpegWorld twoImageFlags [.photo, .image1]).stdout
      ≠ str "Total execution time: 1.5s\n"
          :: specResultLines (jpegWorld.Unmarshal
              (str "\x7b\"Success\":true,\"AccuracyLevel\":199,\"Samples\":[]\x7d")
              PhotoVerifyResponse.zero).1 := by
  decide

/-! ### Runs that build a request -/

theorem sendRequest_NewRequest (w : World) (method id secret photo l1 l2 : GoString)
    (m u : GoString) (payload : List (GoString × GoString))
    (hreq : Event.NewRequest m u payload ∈ (sendRequest w method id secret photo l1 l2).1) :
    payload = (builtRequest method id secret photo l1 l2).jsonData := by
  unfold sendRequest at hreq
  have hv : (if l2 ≠ [] then [(str "idphoto", photo), (str "liveimage1", l1)]
        ++ [(str "liveimage2", l2)] else [(str "idphoto", photo), (str "liveimage1", l1)])
      = [(str "idphoto", photo), (str "liveimage1", l1)]
        ++ (if l2 ≠ [] then [(str "liveimage2", l2)] else []) := by
    split <;> simp
  simp only [hv] at hreq
  split at hreq
  · simp only [List.mem_cons, Event.NewRequest.injEq, List.mem_singleton, logOutput,
      reduceCtorEq, or_false, List.not_mem_nil] at hreq
    exact hreq.2.2
  · split at hreq <;>
      simp only [List.mem_cons, Event.NewRequest.injEq, List.mem_singleton, logOutput,
        reduceCtorEq, or_false, List.not_mem_nil] at hreq <;>
      exact hreq.2.2

theorem NewRequest_not_mem_handleResponse (w : World) (status : Nat) (body : List Byte)
    (m u : GoString) (payload : List (GoString × GoString)) :
    Event.NewRequest m u payload ∉ (handleResponse w status body).trace := by
  have hps : ∀ (l : List Sample) (i : Nat), Event.NewRequest m u payload ∉ printSamples i l := by
    intro l
    induction l with
    | nil => intro i; simp [printSamples]
    | cons a l ih =>
      intro i
      simp only [printSamples, List.mem_append, not_or]
      refine ⟨?_, ih _⟩
      split <;> simp [printErrors]
  unfold handleResponse
  split
  · simp only [List.mem_append, not_or]
    refine ⟨⟨⟨⟨by simp, by simp⟩, ?_⟩, by simp⟩, hps _ _⟩
    split <;> simp [logOutput]
  · simp [Fatal, logOutput]

theorem main_of_NewRequest (w : World) (fl : Flags) (sched : List Task)
    (m u : GoString) (payload : List (GoString × GoString))
    (hreq : Event.NewRequest m u payload ∈ (main w fl sched).trace) :
    (runTasks w fl sched).photoErr = none ∧ (runTasks w fl sched).image1Err = none ∧
    (runTasks w fl sched).image2Err = none ∧
    payload = (builtRequest (str "POST") fl.BWSAppID fl.BWSAppSecret
      (runTasks w fl sched).base64Photo (runTasks w fl sched).base64Image1
      (runTasks w fl sched).base64Image2).jsonData := by
  unfold main at hreq
  split at hreq
  · simp [Fatal, logOutput] at hreq
  · rw [afterWait_reads] at hreq
    simp only [List.mem_append, List.mem_map, reduceCtorEq, and_false, exists_false,
      false_or] at hreq
    generalize runTasks w fl sched = s at hreq ⊢
    unfold afterWait at hreq
    cases hp : s.photoErr with
    | some e => simp [hp, Fatal, logOutput] at hreq
    | none =>
      cases h1 : s.image1Err with
      | some e => simp [hp, h1, Fatal, logOutput] at hreq
      | none =>
        cases h2 : s.image2Err with
        | some e => simp [hp, h1, h2, Fatal, logOutput] at hreq
        | none =>
          simp only [hp, h1, h2] at hreq
          have hin : Event.NewRequest m u payload
              ∈ (sendRequest w (str "POST") fl.BWSAppID fl.BWSAppSecret
                s.base64Photo s.base64Image1 s.base64Image2).1 := by
            split at hreq
            · rename_i sent hsr
              rw [hsr]
              simp at hreq
              exact hreq
            · rename_i sent statusCode response hsr
              rw [hsr]
              simp only [List.nil_append, List.mem_append] at hreq
              rcases hreq with h | h
              · exact h
              · exact absurd h (NewRequest_not_mem_handleResponse _ _ _ _ _ _)
          exact ⟨rfl, rfl, rfl, sendRequest_NewRequest _ _ _ _ _ _ _ _ _ _ hin⟩

/-! ### The request payload -/

/-- C5: in every run that builds a request, all launched encodings succeeded
and the JSON payload binds `idphoto` to the encoded photo and `liveimage1` to
the encoded first live image; it has the key `liveimage2` if and only if the
image2 path is not empty, bound then to the encoded second image; it has no
other key; and it is the payload of every request handed to the transport. -/
theorem request_payload (w : World) (fl : Flags) (sched : List Task)
    (hs : sched.Perm (launched fl)) (m u : GoString) (payload : List (GoString × GoString))
    (hreq : Event.NewRequest m u payload ∈ (main w fl sched).trace) :
    payload
      = [(str "idphoto", (imageToBase64 w fl.photoPath).1),
         (str "liveimage1", (imageToBase64 w fl.image1Path).1)]
        ++ (if fl.image2Path ≠ [] then [(str "liveimage2", (imageToBase64 w fl.image2Path).1)]
            else []) ∧
    (imageToBase64 w fl.photoPath).2 = none ∧
    (imageToBase64 w fl.image1Path).2 = none ∧
    (fl.image2Path ≠ [] → (imageToBase64 w fl.image2Path).2 = none) ∧
    (str "liveimage2" ∈ payload.map Prod.fst ↔ fl.image2Path ≠ []) ∧
    (∀ k ∈ payload.map Prod.fst,
      k = str "idphoto" ∨ k = str "liveimage1" ∨ k = str "liveimage2") ∧
    (∀ req, Event.Do req ∈ (main w fl sched).trace → req.jsonData = payload) := by
  obtain ⟨hp, h1, h2, hr⟩ := main_of_NewRequest w fl sched m u payload hreq
  have hdo : ∀ req, Event.Do req ∈ (main w fl sched).trace → req.jsonData = payload := by
    intro req hd
    obtain ⟨_, hin⟩ := main_of_Do w fl sched req hd
    obtain ⟨_, _, _, hq, _⟩ := afterWait_of_Do w fl _ req hin
    rw [hr, hq]
  rw [runTasks_of_perm w fl sched hs] at hp h1 h2 hr
  simp only at hp h1 h2 hr
  have hk1 : str "liveimage2" ≠ str "idphoto" := by decide
  have hk2 : str "liveimage2" ≠ str "liveimage1" := by decide
  refine ⟨?_, hp, h1, ?_, ?_, ?_, hdo⟩
  · by_cases h : fl.image2Path = []
    · rw [hr]
      simp [builtRequest, h]
    · have h2n : (imageToBase64 w fl.image2Path).2 = none := by simpa [h] using h2
      have hne := imageToBase64_ok_ne_nil w fl.image2Path h2n
      rw [hr]
      simp [builtRequest, h, hne]
  · intro h
    simpa [h] using h2
  · by_cases h : fl.image2Path = []
    · rw [hr]
      simp [builtRequest, h, hk1, hk2]
    · have h2n : (imageToBase64 w fl.image2Path).2 = none := by simpa [h] using h2
      have hne := imageToBase64_ok_ne_nil w fl.image2Path h2n
      rw [hr]
      simp [builtRequest, h, hne]
  · by_cases h : fl.image2Path = []
    · rw [hr]
      simp [builtRequest, h]
    · have h2n : (imageToBase64 w fl.image2Path).2 = none := by simpa [h] using h2
      have hne := imageToBase64_ok_ne_nil w fl.image2Path h2n
      rw [hr]
      simp [builtRequest, h, hne]

/-- Witness of C5: a run with three images. -/
theorem request_payload_witness :
    (([.image2, .image1, .photo] : List Task).Perm (launched threeImageFlags) ∧
      Event.NewRequest (str "POST") (str "https://bws.bioid.com/extension/photoverify2")
          [(str "idphoto", str "data:image/jpeg;base64,/9j/4A=="),
           (str "liveimage1", str "data:image/jpeg;base64,/9j/4A=="),
           (str "liveimage2", str "data:image/jpeg;base64,/9j/4A==")]
        ∈ (main jpegWorld threeImageFlags [.image2, .image1, .photo]).trace) ∧
    (str "liveimage2" ∈ ([(str "idphoto", str "data:image/jpeg;base64,/9j/4A=="),
           (str "liveimage1", str "data:image/jpeg;base64,/9j/4A=="),
           (str "liveimage2", str "data:image/jpeg;base64,/9j/4A==")]).map Prod.fst
      ↔ threeImageFlags.image2Path ≠ []) :=
  have hperm : ([.image2, .image1, .photo] : List Task).Perm (launched threeImageFlags) := by
    decide
  have hmem : Event.NewRequest (str "POST") (str "https://bws.bioid.com/extension/photoverify2")
          [(str "idphoto", str "data:image/jpeg;base64,/9j/4A=="),
           (str "liveimage1", str "data:image/jpeg;base64,/9j/4A=="),
           (str "liveimage2", str "data:image/jpeg;base64,/9j/4A==")]
        ∈ (main jpegWorld threeImageFlags [.image2, .image1, .photo]).trace := by
    decide
  ⟨⟨hperm, hmem⟩,
    (request_payload jpegWorld threeImageFlags [.image2, .image1, .photo] hperm _ _ _
      hmem).2.2.2.2.1⟩

/-! ### Encoding failures -/

/-- C6: in every run that got past the usage check and in which at least one
launched encoding task (photo, image1, or image2 when its path is not empty)
returned an error, the process exits with status 1 after logging one line,
prints nothing, and no request is built or handed to the transport. -/
theorem encoding_failure_sends_nothing (w : World) (fl : Flags) (sched : List Task)
    (hargs : ¬ (fl.BWSAppID = [] ∨ fl.BWSAppSecret = [] ∨ fl.photoPath = []
      ∨ fl.image1Path = []))
    (hs : sched.Perm (launched fl)) (t : Task) (ht : t ∈ launched fl)
    (herr : (imageToBase64 w (t.path fl)).2 ≠ none) :
    (main w fl sched).exitCode = 1 ∧
    (∀ req, Event.Do req ∉ (main w fl sched).trace) ∧
    (∀ m u payload, Event.NewRequest m u payload ∉ (main w fl sched).trace) ∧
    (∃ msg, (main w fl sched).stderr = [logText msg]) ∧
    (main w fl sched).stdout = [] := by
  have hfail : ∃ msg, main w fl sched
      = Fatal (sched.map (fun t => Event.ReadFile (t.path fl))) msg := by
    unfold main
    rw [if_neg hargs, runTasks_of_perm w fl sched hs]
    unfold afterWait
    cases hp : (imageToBase64 w fl.photoPath).2 with
    | some e => exact ⟨_, rfl⟩
    | none =>
      cases h1 : (imageToBase64 w fl.image1Path).2 with
      | some e => exact ⟨_, rfl⟩
      | none =>
        by_cases h : fl.image2Path = []
        · exfalso
          cases t with
          | photo => exact herr hp
          | image1 => exact herr h1
          | image2 => simp [launched, h] at ht
        · cases h2 : (imageToBase64 w fl.image2Path).2 with
          | some e => exact ⟨str "Failed to encode image2: " ++ e, by simp [h, h2]⟩
          | none =>
            exfalso
            cases t with
            | photo => exact herr hp
            | image1 => exact herr h1
            | image2 => exact herr h2
  obtain ⟨msg, hm⟩ := hfail
  rw [hm]
  refine ⟨rfl, ?_, ?_, ⟨msg, ?_⟩, ?_⟩
  · intro req
    simp [Fatal, logOutput]
  · intro m u payload
    simp [Fatal, logOutput]
  · simp only [Fatal]
    rw [stderr_reads fl sched _ _ 0]
    simp [Outcome.stderr, logOutput]
  · simp only [Fatal]
    rw [stdout_reads fl sched _ _ 0]
    simp [Outcome.stdout, logOutput]

/-- Witness of C6: three launched tasks, every file empty. -/
theorem encoding_failure_sends_nothing_witness :
    (¬ (threeImageFlags.BWSAppID = [] ∨ threeImageFlags.BWSAppSecret = []
        ∨ threeImageFlags.photoPath = [] ∨ threeImageFlags.image1Path = []) ∧
      ([.image1, .image2, .photo] : List Task).Perm (launched threeImageFlags) ∧
      Task.image2 ∈ launched threeImageFlags ∧
      (imageToBase64 emptyFileWorld (Task.image2.path threeImageFlags)).2 ≠ none) ∧
    (main emptyFileWorld threeImageFlags [.image1, .image2, .photo]).exitCode = 1 ∧
    (∀ req, Event.Do req ∉ (main emptyFileWorld threeImageFlags [.image1, .image2, .photo]).trace) :=
  have h := encoding_failure_sends_nothing emptyFileWorld threeImageFlags
    [.image1, .image2, .photo] (by decide) (by decide) .image2 (by decide) (by decide)
  ⟨⟨by decide, by decide, by decide, by decide⟩, h.1, h.2.1⟩

/-! ### The usage check -/

theorem logOutput_ne_usage (p e : GoString) (a : Byte) (hp : p.head? = some a) (ha : a ≠ 85) :
    logOutput usage ≠ logOutput (p ++ e) := by
  have hu : (logText usage).head? = some 85 := by decide
  obtain ⟨q, rfl⟩ : ∃ q, p = a :: q := by
    cases p with
    | nil => simp at hp
    | cons b q => simp at hp; exact ⟨q, by rw [hp]⟩
  have hm : (logText (a :: q ++ e)).head? = some a := by
    unfold logText
    split <;> simp
  intro h
  simp only [logOutput, Event.Stderr.injEq] at h
  rw [h, hm] at hu
  exact ha (Option.some.inj hu)

theorem usage_not_mem_printSamples (l : List Sample) : ∀ i : Nat,
    logOutput usage ∉ printSamples i l := by
  induction l with
  | nil => intro i; simp [printSamples]
  | cons a l ih =>
    intro i
    simp only [printSamples, List.mem_append, not_or]
    refine ⟨?_, ih _⟩
    split <;> simp [printErrors, logOutput]

theorem usage_not_mem_handleResponse (w : World) (status : Nat) (body : List Byte) :
    logOutput usage ∉ (handleResponse w status body).trace := by
  have hu := logOutput_ne_usage (str "Failed to unmarshal JSON response.\n") [] 70
    (by decide) (by decide)
  have hr := logOutput_ne_usage (str "Received HTTP response code != 200: ") (formatInt status) 82
    (by decide) (by decide)
  rw [List.append_nil] at hu
  unfold handleResponse
  split
  · simp only [List.mem_append, not_or]
    refine ⟨⟨⟨⟨by simp [logOutput], by simp [logOutput]⟩, ?_⟩, by simp [logOutput]⟩,
      usage_not_mem_printSamples _ _⟩
    split
    · simpa using hu
    · simp
  · simp only [Fatal, List.mem_append, not_or]
    exact ⟨by simp [logOutput], by simpa using hr⟩

theorem usage_not_mem_sendRequest (w : World) (method id secret photo l1 l2 : GoString) :
    logOutput usage ∉ (sendRequest w method id secret photo l1 l2).1 := by
  have h1 := fun e => logOutput_ne_usage (str "Failed to create request: ") e 70
    (by decide) (by decide)
  have h2 := fun e => logOutput_ne_usage (str "Error sending request to API endpoint: ") e 69
    (by decide) (by decide)
  have h3 := fun e => logOutput_ne_usage (str "Failed to read response body: ") e 70
    (by decide) (by decide)
  unfold sendRequest
  dsimp only
  generalize (if l2 ≠ [] then [(str "idphoto", photo), (str "liveimage1", l1)]
    ++ [(str "liveimage2", l2)] else [(str "idphoto", photo), (str "liveimage1", l1)]) = values
  cases hn : w.NewRequest method (str "https://bws.bioid.com/extension/photoverify2") with
  | some err =>
    simp only [List.mem_cons, List.mem_singleton, not_or, List.not_mem_nil, or_false]
    exact ⟨by simp [logOutput], h1 err⟩
  | none =>
    simp only
    split
    · simp only [List.mem_cons, List.mem_singleton, not_or, List.not_mem_nil, or_false]
      exact ⟨by simp [logOutput], by simp [logOutput], h2 _⟩
    · simp only [List.mem_cons, List.mem_singleton, not_or, List.not_mem_nil, or_false]
      exact ⟨by simp [logOutput], by simp [logOutput], h3 _⟩
    · simp [logOutput]

theorem usage_not_mem_afterWait (w : World) (fl : Flags) (s : Slots) :
    logOutput usage ∉ (afterWait w fl [] s).trace := by
  have h1 := fun e => logOutput_ne_usage (str "Failed to encode photo: ") e 70
    (by decide) (by decide)
  have h2 := fun e => logOutput_ne_usage (str "Failed to encode image1: ") e 70
    (by decide) (by decide)
  have h3 := fun e => logOutput_ne_usage (str "Failed to encode image2: ") e 70
    (by decide) (by decide)
  unfold afterWait
  split
  · simpa [Fatal] using h1 _
  · split
    · simpa [Fatal] using h2 _
    · split
      · simpa [Fatal] using h3 _
      · have hsr := usage_not_mem_sendRequest w (str "POST") fl.BWSAppID fl.BWSAppSecret
          s.base64Photo s.base64Image1 s.base64Image2
        split
        · rename_i sent heq
          rw [heq] at hsr
          simpa using hsr
        · rename_i sent statusCode response heq
          rw [heq] at hsr
          simp only [List.nil_append, List.mem_append, not_or]
          exact ⟨hsr, usage_not_mem_handleResponse _ _ _⟩

/-- C9: for every argument tuple, the usage message is logged if and only if at
least one of application ID, application secret, photo path and image1 path is
empty, whatever the image2 path is; and in that case the run consists of that
one log line and exit status 1: no file is read, no encoding task runs and no
request is sent. -/
theorem usage_error_iff (w : World) (fl : Flags) (sched : List Task) :
    (logOutput usage ∈ (main w fl sched).trace ↔
      (fl.BWSAppID = [] ∨ fl.BWSAppSecret = [] ∨ fl.photoPath = [] ∨ fl.image1Path = [])) ∧
    ((fl.BWSAppID = [] ∨ fl.BWSAppSecret = [] ∨ fl.photoPath = [] ∨ fl.image1Path = []) →
      (main w fl sched).trace = [logOutput usage] ∧ (main w fl sched).exitCode = 1 ∧
      (∀ name, Event.ReadFile name ∉ (main w fl sched).trace) ∧
      (∀ req, Event.Do req ∉ (main w fl sched).trace)) := by
  constructor
  · constructor
    · intro hmem
      by_contra hargs
      unfold main at hmem
      rw [if_neg hargs, afterWait_reads] at hmem
      simp only [List.mem_append] at hmem
      rcases hmem with h | h
      · simp [logOutput] at h
      · exact usage_not_mem_afterWait w fl _ h
    · intro hargs
      unfold main
      rw [if_pos hargs]
      simp [Fatal]
  · intro hargs
    unfold main
    rw [if_pos hargs]
    simp [Fatal, logOutput]

/-! ### Which failure is reported -/

/-- C10: in a run that got past the usage check, the reported encoding failure
depends only on the results of the three tasks, with the precedence photo,
image1, image2: if the photo task failed its error is logged; otherwise, if
the image1 task failed, that error is logged; otherwise, if the image2 task
was launched and failed, that error is logged; and any two orders in which
the launched tasks complete give the same log, the same output and the same
exit status. -/
theorem encoding_failure_precedence (w : World) (fl : Flags) (sched : List Task)
    (hargs : ¬ (fl.BWSAppID = [] ∨ fl.BWSAppSecret = [] ∨ fl.photoPath = []
      ∨ fl.image1Path = []))
    (hs : sched.Perm (launched fl)) :
    (∀ e, (imageToBase64 w fl.photoPath).2 = some e →
      main w fl sched = Fatal (sched.map (fun t => Event.ReadFile (t.path fl)))
        (str "Failed to encode photo: " ++ e)) ∧
    (∀ e, (imageToBase64 w fl.photoPath).2 = none →
      (imageToBase64 w fl.image1Path).2 = some e →
      main w fl sched = Fatal (sched.map (fun t => Event.ReadFile (t.path fl)))
        (str "Failed to encode image1: " ++ e)) ∧
    (∀ e, (imageToBase64 w fl.photoPath).2 = none →
      (imageToBase64 w fl.image1Path).2 = none → fl.image2Path ≠ [] →
      (imageToBase64 w fl.image2Path).2 = some e →
      main w fl sched = Fatal (sched.map (fun t => Event.ReadFile (t.path fl)))
        (str "Failed to encode image2: " ++ e)) ∧
    (∀ sched1 : List Task, sched1.Perm (launched fl) →
      (main w fl sched1).stderr = (main w fl sched).stderr ∧
      (main w fl sched1).stdout = (main w fl sched).stdout ∧
      (main w fl sched1).exitCode = (main w fl sched).exitCode) := by
  refine ⟨?_, ?_, ?_, ?_⟩
  · intro e hp
    unfold main
    rw [if_neg hargs, runTasks_of_perm w fl sched hs]
    simp [afterWait, hp]
  · intro e hp h1
    unfold main
    rw [if_neg hargs, runTasks_of_perm w fl sched hs]
    simp [afterWait, hp, h1]
  · intro e hp h1 hne h2
    unfold main
    rw [if_neg hargs, runTasks_of_perm w fl sched hs]
    simp [afterWait, hp, h1, hne, h2]
  · intro sched1 hs1
    unfold main
    rw [if_neg hargs, if_neg hargs, runTasks_of_perm w fl sched hs,
      runTasks_of_perm w fl sched1 hs1, afterWait_reads w fl (sched.map _),
      afterWait_reads w fl (sched1.map _)]
    refine ⟨?_, ?_, rfl⟩
    · rw [stderr_reads fl sched1 _ _ 0, stderr_reads fl sched _ _ 0]
    · rw [stdout_reads fl sched1 _ _ 0, stdout_reads fl sched _ _ 0]

/-- Witness of C10: three launched tasks that all fail; the photo error is the
one reported, in either of two completion orders. -/
theorem encoding_failure_precedence_witness :
    (¬ (threeImageFlags.BWSAppID = [] ∨ threeImageFlags.BWSAppSecret = []
        ∨ threeImageFlags.photoPath = [] ∨ threeImageFlags.image1Path = []) ∧
      ([.image2, .image1, .photo] : List Task).Perm (launched threeImageFlags)) ∧
    (main emptyFileWorld threeImageFlags [.image2, .image1, .photo]).stderr
      = [str "Failed to encode photo: unsupported mime type text/plain; charset=utf-8 for file photo.jpg\n"] ∧
    (main emptyFileWorld threeImageFlags [.photo, .image1, .image2]).stderr
      = (main emptyFileWorld threeImageFlags [.image2, .image1, .photo]).stderr :=
  have h := encoding_failure_precedence emptyFileWorld threeImageFlags [.image2, .image1, .photo]
    (by decide) (by decide)
  ⟨⟨by decide, by decide⟩, by decide, (h.2.2.2 [.photo, .image1, .image2] (by decide)).1⟩

end PhotoVerify
